import Mathlib

set_option maxRecDepth 100000

/-!
Verification development for the securechat repository.

Bytes are modelled as `Nat` (values kept below 256 by construction);
byte slices are `List Nat`.  Go's `uint32` counters are `Nat` with an
explicit `% 2^32` where the source increments them.  Randomness
(`crypto/rand`) is modelled by passing the random bytes as explicit
arguments.  External library primitives (Go standard library and
golang.org/x/crypto, which are not part of this repository's sources)
are modelled as fixed executable stand-in functions with the same
shapes (input/output lengths, tag-checked AEAD, deterministic digests);
no theorem below depends on the internal algebra of those primitives.
-/

namespace SecureChat

/-- Modelled from the spec: SHA-256 (`crypto/sha256`, not in the
repository sources).  Stand-in 32-byte digest: deterministic, executable,
every output byte is `< 256`. -/
def sha256 (msg : List Nat) : List Nat :=
  (List.range 32).map (fun i =>
    (msg.foldl (fun acc b => (acc * 131 + b % 256 + 1) % 65521) (i * 7919 + msg.length)) % 256)

theorem sha256_length (msg : List Nat) : (sha256 msg).length = 32 := by
  simp [sha256]

/-- Modelled from the spec: HKDF-SHA256 (`golang.org/x/crypto/hkdf`, not in
the repository sources).  `hkdf ikm salt info n` produces `n` output bytes,
matching `hkdf.New(sha256.New, ikm, salt, info)` read for `n` bytes. -/
def hkdf (ikm salt info : List Nat) (n : Nat) : List Nat :=
  (List.range n).map (fun i => (sha256 (salt ++ ikm ++ info ++ [i / 32])).getD (i % 32) 0)

theorem hkdf_length (ikm salt info : List Nat) (n : Nat) :
    (hkdf ikm salt info n).length = n := by
  simp [hkdf]

/-- Modelled from the spec: X25519 scalar multiplication
(`golang.org/x/crypto/curve25519.X25519`, not in the repository sources).
Stand-in deterministic 32-byte function of the private scalar and the peer
point. -/
def x25519 (priv pub : List Nat) : List Nat :=
  sha256 (priv ++ pub)

/-- `curve25519.Basepoint`: the byte 9 followed by 31 zero bytes. -/
def basepoint : List Nat := 9 :: List.replicate 31 0

/-- Modelled from the spec: the ChaCha20 keystream of
`golang.org/x/crypto/chacha20poly1305` (not in the repository sources).
Stand-in keystream of `n` bytes determined by key and nonce. -/
def chachaKeystream (key nonce : List Nat) (n : Nat) : List Nat :=
  (List.range n).map (fun i => (sha256 (key ++ nonce ++ [i / 32])).getD (i % 32) 0)

theorem chachaKeystream_length (key nonce : List Nat) (n : Nat) :
    (chachaKeystream key nonce n).length = n := by
  simp [chachaKeystream]

/-- Modelled from the spec: the Poly1305 authenticator of
`golang.org/x/crypto/chacha20poly1305` (not in the repository sources).
Stand-in 16-byte tag over key, nonce, additional data and ciphertext. -/
def poly1305Tag (key nonce aad ct : List Nat) : List Nat :=
  (sha256 (key ++ nonce ++ [aad.length] ++ aad ++ [ct.length] ++ ct)).take 16

theorem poly1305Tag_length (key nonce aad ct : List Nat) :
    (poly1305Tag key nonce aad ct).length = 16 := by
  simp [poly1305Tag, sha256_length]

/-- Modelled from the spec: `aead.Seal(nil, nonce, plaintext, aad)` for
ChaCha20-Poly1305: the ciphertext (plaintext XOR keystream) with the
16-byte tag appended. -/
def aeadSeal (key nonce aad pt : List Nat) : List Nat :=
  List.zipWith (· ^^^ ·) pt (chachaKeystream key nonce pt.length) ++
    poly1305Tag key nonce aad (List.zipWith (· ^^^ ·) pt (chachaKeystream key nonce pt.length))

/-- Modelled from the spec: `aead.Open(nil, nonce, data, aad)` for
ChaCha20-Poly1305: split off the 16-byte tag, verify it, and undo the
keystream XOR; `none` on tag mismatch (Go returns an error). -/
def aeadOpen (key nonce aad data : List Nat) : Option (List Nat) :=
  if data.length < 16 then none
  else if data.drop (data.length - 16) =
      poly1305Tag key nonce aad (data.take (data.length - 16)) then
    some (List.zipWith (· ^^^ ·) (data.take (data.length - 16))
      (chachaKeystream key nonce (data.take (data.length - 16)).length))
  else none

theorem zipWith_xor_cancel :
    ∀ (pt ks : List Nat), pt.length = ks.length →
      List.zipWith (· ^^^ ·) (List.zipWith (· ^^^ ·) pt ks) ks = pt := by
  intro pt
  induction pt with
  | nil => intro ks _; simp
  | cons a as ih =>
      intro ks h
      cases ks with
      | nil => simp at h
      | cons k kst =>
          simp only [List.zipWith_cons_cons, List.cons.injEq]
          exact ⟨Nat.xor_cancel_right k a, ih kst (by simpa using h)⟩

theorem aeadOpen_append (key nonce aad ct tg : List Nat) (htg : tg.length = 16)
    (htag : tg = poly1305Tag key nonce aad ct) :
    aeadOpen key nonce aad (ct ++ tg) =
      some (List.zipWith (· ^^^ ·) ct (chachaKeystream key nonce ct.length)) := by
  unfold aeadOpen
  have hdl : (ct ++ tg).length = ct.length + 16 := by simp [htg]
  rw [hdl]
  rw [if_neg (by omega)]
  have hsub : ct.length + 16 - 16 = ct.length := by omega
  rw [hsub, List.take_left, List.drop_left, if_pos htag]

theorem aead_roundtrip (key nonce aad pt : List Nat) :
    aeadOpen key nonce aad (aeadSeal key nonce aad pt) = some pt := by
  have hks : (chachaKeystream key nonce pt.length).length = pt.length :=
    chachaKeystream_length key nonce pt.length
  have hct : (List.zipWith (· ^^^ ·) pt (chachaKeystream key nonce pt.length)).length
      = pt.length := by
    simp [List.length_zipWith, hks]
  rw [aeadSeal, aeadOpen_append key nonce aad _ _ (poly1305Tag_length _ _ _ _) rfl, hct]
  exact congrArg some (zipWith_xor_cancel pt _ hks.symm)

/-! ## pkg/crypto/encryption.go -/

/-- `EncryptedMessage` (encryption.go).  The Go code stores ciphertext and
nonce; the `Tag` field is never populated (the tag rides inside
`Ciphertext`, appended by `Seal`). -/
structure EncryptedMessage where
  Ciphertext : List Nat
  Nonce : List Nat
  Tag : List Nat
deriving Repr, DecidableEq

/-- `KeyPair` (part_001, package crypto). -/
structure KeyPair where
  PublicKey : List Nat
  PrivateKey : List Nat
deriving Repr, DecidableEq

/-- `ChainState` (encryption.go). -/
structure ChainState where
  ChainKey : List Nat
  MessageNumber : Nat
deriving Repr, DecidableEq

/-- `DoubleRatchet` (encryption.go).  Note: the struct has no skipped-keys
store and no header handling; this mirrors the source exactly. -/
structure DoubleRatchet where
  RootKey : List Nat
  SendingChain : ChainState
  ReceivingChain : ChainState
  DHSelf : KeyPair
  DHRemote : List Nat
  MessageNumber : Nat
  PreviousCounter : Nat
deriving Repr, DecidableEq

/-- `deriveRootKey` (encryption.go): SHA-256 of the shared secret. -/
def deriveRootKey (sharedSecret : List Nat) : List Nat :=
  sha256 sharedSecret

/-- `deriveChainKey` (encryption.go): HKDF with ikm = rootKey, nil salt and
the concatenated public keys as info, 32 bytes read. -/
def deriveChainKey (rootKey localPublic remotePublic : List Nat) : List Nat :=
  hkdf rootKey [] (localPublic ++ remotePublic) 32

/-- `deriveMessageKey` (encryption.go): SHA-256 of chainKey followed by the
four little-endian bytes of the uint32 message number, first 32 bytes. -/
def deriveMessageKey (chainKey : List Nat) (messageNumber : Nat) : List Nat :=
  (sha256 (chainKey ++
    [messageNumber % 256, messageNumber / 256 % 256,
     messageNumber / 65536 % 256, messageNumber / 16777216 % 256])).take 32

/-- `advanceChainKey` (encryption.go): SHA-256 of chainKey followed by the
advancement constant 0x01, first 32 bytes. -/
def advanceChainKey (chainKey : List Nat) : List Nat :=
  (sha256 (chainKey ++ [1])).take 32

/-- The `info` string `"SecureChat-RootChain"` as ASCII bytes. -/
def rootChainInfo : List Nat :=
  [83, 101, 99, 117, 114, 101, 67, 104, 97, 116, 45, 82, 111, 111, 116, 67, 104, 97, 105, 110]

/-- `deriveRootAndChainKeys` (encryption.go): HKDF with ikm = dhOutput,
salt = rootKey, info `"SecureChat-RootChain"`; first 32 bytes are the new
root key, next 32 the new chain key. -/
def deriveRootAndChainKeys (rootKey dhOutput : List Nat) : List Nat × List Nat :=
  ((hkdf dhOutput rootKey rootChainInfo 64).take 32,
   (hkdf dhOutput rootKey rootChainInfo 64).drop 32)

/-- `encryptWithKey` (encryption.go).  The Go code draws the 12-byte nonce
from `crypto/rand`; the random bytes are passed here as the explicit
`nonce` argument.  AD is `nil` (`aead.Seal(nil, nonce, plaintext, nil)`),
and the returned message leaves `Tag` at its zero value. -/
def encryptWithKey (plaintext key nonce : List Nat) : EncryptedMessage :=
  { Ciphertext := aeadSeal key nonce [] plaintext, Nonce := nonce, Tag := [] }

/-- `decryptWithKey` (encryption.go): `aead.Open(nil, nonce, ciphertext, nil)`;
`none` models the returned error. -/
def decryptWithKey (encrypted : EncryptedMessage) (key : List Nat) : Option (List Nat) :=
  aeadOpen key encrypted.Nonce [] encrypted.Ciphertext

/-- `NewDoubleRatchet` (encryption.go).  The fresh DH private key drawn from
`crypto/rand` is the explicit `dhPrivate` argument.  The receiving chain key
is initialized to 32 zero bytes ("will be derived when receiving"). -/
def NewDoubleRatchet (sharedSecret remotePublicKey dhPrivate : List Nat) : DoubleRatchet :=
  { RootKey := deriveRootKey sharedSecret
    DHSelf := { PublicKey := x25519 dhPrivate basepoint, PrivateKey := dhPrivate }
    DHRemote := remotePublicKey
    SendingChain :=
      { ChainKey := deriveChainKey (deriveRootKey sharedSecret)
          (x25519 dhPrivate basepoint) remotePublicKey
        MessageNumber := 0 }
    ReceivingChain := { ChainKey := List.replicate 32 0, MessageNumber := 0 }
    MessageNumber := 0
    PreviousCounter := 0 }

/-- `Encrypt` (encryption.go): derive the message key from the sending chain
at its current message number, advance the chain (uint32 increment), then
encrypt.  Returns the encrypted message and the mutated receiver state;
`nonce` is the randomness consumed by `encryptWithKey`. -/
def Encrypt (dr : DoubleRatchet) (plaintext nonce : List Nat) :
    EncryptedMessage × DoubleRatchet :=
  (encryptWithKey plaintext
      (deriveMessageKey dr.SendingChain.ChainKey dr.SendingChain.MessageNumber) nonce,
   { dr with SendingChain :=
      { ChainKey := advanceChainKey dr.SendingChain.ChainKey
        MessageNumber := (dr.SendingChain.MessageNumber + 1) % 2 ^ 32 } })

/-- `Decrypt` (encryption.go): derive the message key from the receiving
chain key at the caller-supplied message number, attempt AEAD decryption;
on failure return the error without touching state, on success advance the
receiving chain (uint32 increment). -/
def Decrypt (dr : DoubleRatchet) (encrypted : EncryptedMessage) (messageNumber : Nat) :
    Option (List Nat) × DoubleRatchet :=
  match decryptWithKey encrypted (deriveMessageKey dr.ReceivingChain.ChainKey messageNumber) with
  | none => (none, dr)
  | some plaintext =>
      (some plaintext,
       { dr with ReceivingChain :=
          { ChainKey := advanceChainKey dr.ReceivingChain.ChainKey
            MessageNumber := (dr.ReceivingChain.MessageNumber + 1) % 2 ^ 32 } })

/-- `PerformDHRatchet` (encryption.go).  The fresh DH private key drawn from
`crypto/rand` is the explicit `newPrivate` argument.  Note what the source
does: one DH with the *new* key, one HKDF, and only the sending chain is
replaced; the receiving chain is left untouched. -/
def PerformDHRatchet (dr : DoubleRatchet) (remotePublicKey newPrivate : List Nat) :
    DoubleRatchet :=
  { dr with
    RootKey := (deriveRootAndChainKeys dr.RootKey (x25519 newPrivate remotePublicKey)).1
    DHSelf := { PublicKey := x25519 newPrivate basepoint, PrivateKey := newPrivate }
    DHRemote := remotePublicKey
    SendingChain :=
      { ChainKey := (deriveRootAndChainKeys dr.RootKey (x25519 newPrivate remotePublicKey)).2
        MessageNumber := 0 }
    PreviousCounter := dr.MessageNumber
    MessageNumber := 0 }

/-- `SimpleEncrypt` (encryption.go). -/
def SimpleEncrypt (plaintext key nonce : List Nat) : EncryptedMessage :=
  encryptWithKey plaintext key nonce

/-- `SimpleDecrypt` (encryption.go). -/
def SimpleDecrypt (encrypted : EncryptedMessage) (key : List Nat) : Option (List Nat) :=
  decryptWithKey encrypted key

/-- Modelled from the spec: `u96_from(sending_chain.N)`, the 96-bit (12-byte)
little-endian encoding of the message number that the spec's nonce rule
demands.  Spec-side definition, used only to compare the code's nonce
against the rule. -/
def u96_from (n : Nat) : List Nat :=
  (List.range 12).map (fun i => n / 256 ^ i % 256)

/-! ## Concrete session states used by witnesses and counterexamples -/

/-- A sender state whose sending chain key is 32 bytes of 7, at message
number 0. -/
def drSend0 : DoubleRatchet :=
  { RootKey := List.replicate 32 0
    SendingChain := { ChainKey := List.replicate 32 7, MessageNumber := 0 }
    ReceivingChain := { ChainKey := List.replicate 32 0, MessageNumber := 0 }
    DHSelf := { PublicKey := List.replicate 32 0, PrivateKey := List.replicate 32 0 }
    DHRemote := List.replicate 32 0
    MessageNumber := 0
    PreviousCounter := 0 }

/-- A receiver state whose receiving chain key matches `drSend0`'s sending
chain key. -/
def drRecv0 : DoubleRatchet :=
  { RootKey := List.replicate 32 0
    SendingChain := { ChainKey := List.replicate 32 0, MessageNumber := 0 }
    ReceivingChain := { ChainKey := List.replicate 32 7, MessageNumber := 0 }
    DHSelf := { PublicKey := List.replicate 32 0, PrivateKey := List.replicate 32 0 }
    DHRemote := List.replicate 32 0
    MessageNumber := 0
    PreviousCounter := 0 }

/-- A receiver state with distinctive root key, remote DH public and a
receiving chain at message number 7, used to observe which fields the
ratchet operations touch. -/
def drObs : DoubleRatchet :=
  { RootKey := List.replicate 32 4
    SendingChain := { ChainKey := List.replicate 32 3, MessageNumber := 2 }
    ReceivingChain := { ChainKey := List.replicate 32 2, MessageNumber := 7 }
    DHSelf := { PublicKey := List.replicate 32 8, PrivateKey := List.replicate 32 9 }
    DHRemote := List.replicate 32 5
    MessageNumber := 2
    PreviousCounter := 0 }

/-! ## Claims C1 to C5: the session cipher -/

/-- C1.  Round-trip of the session cipher: for every plaintext `p`,
encrypting on the sender's sending chain and decrypting on the receiver's
matching receiving chain (same chain key, envelope message number equal to
the sender's chain position) returns `p`.  The source passes `nil`
associated data to the AEAD on both sides, so the round-trip holds for the
(only) associated data the code ever uses. -/
theorem session_roundtrip (drS drR : DoubleRatchet) (p nonce : List Nat) (n : Nat)
    (hck : drR.ReceivingChain.ChainKey = drS.SendingChain.ChainKey)
    (hn : n = drS.SendingChain.MessageNumber) :
    (Decrypt drR (Encrypt drS p nonce).1 n).1 = some p := by
  unfold Decrypt
  rw [hck, hn]
  have hd : decryptWithKey (Encrypt drS p nonce).1
      (deriveMessageKey drS.SendingChain.ChainKey drS.SendingChain.MessageNumber) = some p := by
    unfold Encrypt encryptWithKey decryptWithKey
    exact aead_roundtrip _ _ _ _
  rw [hd]

/-- Witness for C1: the chain keys of `drRecv0` and `drSend0` match, and the
round-trip on the concrete plaintext "hi" returns it. -/
theorem session_roundtrip_witness :
    drRecv0.ReceivingChain.ChainKey = drSend0.SendingChain.ChainKey ∧
      (Decrypt drRecv0 (Encrypt drSend0 [104, 105] (List.replicate 12 3)).1 0).1 =
        some [104, 105] :=
  ⟨rfl, session_roundtrip drSend0 drRecv0 [104, 105] (List.replicate 12 3) 0 rfl rfl⟩

/-- C2 (divergence witness).  The source's `Decrypt` has no skipped-key
store at all: decrypting an envelope numbered 500 (far beyond
MAX_SKIP_PER_CHAIN = 200) on a receiving chain at message number 0
succeeds outright - no `TooManySkipped` error exists and no message keys
are derived or stored for the skipped range; the receiving chain merely
advances by one. -/
theorem decrypt_skip500_succeeds :
    (Decrypt drObs
        (encryptWithKey [104, 105]
          (deriveMessageKey drObs.ReceivingChain.ChainKey 500) (List.replicate 12 9))
        500).1 = some [104, 105] ∧
      (Decrypt drObs
        (encryptWithKey [104, 105]
          (deriveMessageKey drObs.ReceivingChain.ChainKey 500) (List.replicate 12 9))
        500).2.ReceivingChain.MessageNumber = (7 + 1) % 2 ^ 32 := by
  constructor
  · decide
  · decide

/-- C3 (divergence witness).  The source never performs the DH ratchet the
claim describes: `Decrypt` takes no ratchet header and leaves the root key
and remote DH public untouched even on success, and `PerformDHRatchet`
itself (a) leaves the receiving chain - key and message number - exactly
as it was, (b) generates the fresh DH key *before* any derivation and runs
a single HKDF that feeds only the sending chain. -/
theorem dh_ratchet_divergence :
    (PerformDHRatchet drObs (List.replicate 32 6) (List.replicate 32 10)).ReceivingChain =
        drObs.ReceivingChain ∧
      (PerformDHRatchet drObs (List.replicate 32 6)
        (List.replicate 32 10)).ReceivingChain.MessageNumber = 7 ∧
      (Decrypt drObs
        (encryptWithKey [104, 105]
          (deriveMessageKey drObs.ReceivingChain.ChainKey 0) (List.replicate 12 9))
        0).2.RootKey = drObs.RootKey ∧
      (Decrypt drObs
        (encryptWithKey [104, 105]
          (deriveMessageKey drObs.ReceivingChain.ChainKey 0) (List.replicate 12 9))
        0).2.DHRemote = drObs.DHRemote ∧
      (Decrypt drObs
        (encryptWithKey [104, 105]
          (deriveMessageKey drObs.ReceivingChain.ChainKey 0) (List.replicate 12 9))
        0).1 = some [104, 105] := by
  refine ⟨by decide, by decide, by decide, by decide, by decide⟩

/-- C4.  Decrypt failure atomicity: whenever the AEAD open fails, `Decrypt`
returns the session state exactly as it was - no field is mutated. -/
theorem decrypt_failure_preserves_state (dr : DoubleRatchet) (enc : EncryptedMessage)
    (n : Nat) (h : (Decrypt dr enc n).1 = none) : (Decrypt dr enc n).2 = dr := by
  unfold Decrypt at h ⊢
  cases hd : decryptWithKey enc (deriveMessageKey dr.ReceivingChain.ChainKey n) with
  | none => rfl
  | some pt => rw [hd] at h; simp at h

/-- Witness for C4: a concrete envelope whose tag cannot verify (empty
ciphertext) fails to decrypt, and the state comes back unchanged. -/
theorem decrypt_failure_preserves_state_witness :
    (Decrypt drObs { Ciphertext := [], Nonce := List.replicate 12 0, Tag := [] } 0).1 = none ∧
      (Decrypt drObs { Ciphertext := [], Nonce := List.replicate 12 0, Tag := [] } 0).2 =
        drObs :=
  ⟨by decide,
   decrypt_failure_preserves_state drObs
     { Ciphertext := [], Nonce := List.replicate 12 0, Tag := [] } 0 (by decide)⟩

/-! ## part_001 (package crypto): identities, safety numbers, SecureCompare -/

/-- `IdentityKeyPair` (part_001). -/
structure IdentityKeyPair where
  SigningKey : KeyPair
  ExchangeKey : KeyPair
  Fingerprint : String
deriving Repr, DecidableEq

/-- Go's `string(a) < string(b)` on byte slices: lexicographic byte order. -/
def lexLt : List Nat → List Nat → Bool
  | _, [] => false
  | [], _ :: _ => true
  | a :: as, b :: bs => if a < b then true else if b < a then false else lexLt as bs

theorem lexLt_asymm : ∀ a b : List Nat, lexLt a b = true → lexLt b a = false := by
  intro a
  induction a with
  | nil => intro b _; cases b <;> rfl
  | cons x xs ih =>
      intro b h
      cases b with
      | nil => simp [lexLt] at h
      | cons y ys =>
          by_cases hxy : x < y
          · simp [lexLt, Nat.lt_asymm hxy, Nat.ne_of_gt hxy]
            omega
          · by_cases hyx : y < x
            · simp [lexLt, hxy, hyx] at h
            · have hxy' : x = y := by omega
              subst hxy'
              simp [lexLt] at h ⊢
              exact ih ys h

theorem lexLt_eq_of_both_false :
    ∀ a b : List Nat, lexLt a b = false → lexLt b a = false → a = b := by
  intro a
  induction a with
  | nil =>
      intro b h1 _
      cases b with
      | nil => rfl
      | cons y ys => simp [lexLt] at h1
  | cons x xs ih =>
      intro b h1 h2
      cases b with
      | nil => simp [lexLt] at h2
      | cons y ys =>
          by_cases hxy : x < y
          · simp [lexLt, hxy] at h1
          · by_cases hyx : y < x
            · simp [lexLt, hyx] at h2
            · have hxy' : x = y := by omega
              subst hxy'
              simp [lexLt] at h1 h2
              rw [ih ys h1 h2]

/-- The identity's concatenated public material `sig_pub ++ dh_pub`, the
`localCombined`/`remoteCombined` values of `GetSafetyNumber` (part_001). -/
def combinedKeys (identity : IdentityKeyPair) : List Nat :=
  identity.SigningKey.PublicKey ++ identity.ExchangeKey.PublicKey

/-- The inner loop of `GetSafetyNumber` (part_001): one group of five
decimal digits, digit `j` taken from hash byte `(i*5+j) % len(hash)`
modulo 10, appended one character at a time. -/
def safetyGroup (hash : List Nat) (i : Nat) : String :=
  (List.range 5).foldl
    (fun acc j => acc ++ toString (hash.getD ((i * 5 + j) % hash.length) 0 % 10)) ""

/-- `GetSafetyNumber` (part_001): order the two parties' combined public
keys lexicographically, hash the concatenation, and render 12 groups of 5
digits joined by single spaces. -/
def GetSafetyNumber (localIdentity remoteIdentity : IdentityKeyPair) : String :=
  String.intercalate " "
    ((List.range 12).map (safetyGroup (sha256
      (if lexLt (combinedKeys localIdentity) (combinedKeys remoteIdentity) then
        combinedKeys localIdentity ++ combinedKeys remoteIdentity
      else combinedKeys remoteIdentity ++ combinedKeys localIdentity))))

theorem digit_toString :
    ∀ d : Nat, d < 10 → (toString d).length = 1 ∧ (toString d).data.all Char.isDigit := by
  decide

theorem safetyGroup_spec (hash : List Nat) (i : Nat) :
    (safetyGroup hash i).length = 5 ∧ (safetyGroup hash i).data.all Char.isDigit := by
  have hd : ∀ j : Nat, (hash.getD ((i * 5 + j) % hash.length) 0 % 10) < 10 :=
    fun j => Nat.mod_lt _ (by norm_num)
  have h0 := digit_toString _ (hd 0)
  have h1 := digit_toString _ (hd 1)
  have h2 := digit_toString _ (hd 2)
  have h3 := digit_toString _ (hd 3)
  have h4 := digit_toString _ (hd 4)
  unfold safetyGroup
  rw [show List.range 5 = [0, 1, 2, 3, 4] from rfl]
  simp only [List.foldl_cons, List.foldl_nil]
  constructor
  · simp only [String.length_append, h0.1, h1.1, h2.1, h3.1, h4.1]
    rfl
  · simp only [String.data_append, List.all_append, Bool.and_eq_true]
    exact ⟨⟨⟨⟨⟨rfl, h0.2⟩, h1.2⟩, h2.2⟩, h3.2⟩, h4.2⟩

theorem GetSafetyNumber_symm (X Y : IdentityKeyPair) :
    GetSafetyNumber X Y = GetSafetyNumber Y X := by
  unfold GetSafetyNumber
  cases hab : lexLt (combinedKeys X) (combinedKeys Y) with
  | true =>
      have hba := lexLt_asymm _ _ hab
      simp [hab, hba]
  | false =>
      cases hba : lexLt (combinedKeys Y) (combinedKeys X) with
      | true => simp [hab, hba]
      | false =>
          have heq := lexLt_eq_of_both_false _ _ hab hba
          simp [hab, hba, heq]

/-- C6.  Safety-number symmetry and format: `GetSafetyNumber` is
order-independent, it hashes the lexicographically ordered concatenation
min(A,B) ++ max(A,B) of the two parties' `sig_pub ++ dh_pub` material, and
its output is 12 space-separated groups of 5 decimal digits (60 digits in
total). -/
theorem safety_number_symm_and_format (X Y : IdentityKeyPair) :
    GetSafetyNumber X Y = GetSafetyNumber Y X ∧
      GetSafetyNumber X Y = String.intercalate " "
        ((List.range 12).map (safetyGroup (sha256
          ((if lexLt (combinedKeys X) (combinedKeys Y) then combinedKeys X
            else combinedKeys Y) ++
           (if lexLt (combinedKeys X) (combinedKeys Y) then combinedKeys Y
            else combinedKeys X))))) ∧
      (∃ groups : List String,
        GetSafetyNumber X Y = String.intercalate " " groups ∧
        groups.length = 12 ∧
        ∀ g ∈ groups, g.length = 5 ∧ g.data.all Char.isDigit) := by
  refine ⟨GetSafetyNumber_symm X Y, ?_, ?_⟩
  · cases hab : lexLt (combinedKeys X) (combinedKeys Y) <;> simp [GetSafetyNumber, hab]
  · unfold GetSafetyNumber
    refine ⟨_, rfl, by simp, ?_⟩
    intro g hg
    rw [List.mem_map] at hg
    obtain ⟨i, -, rfl⟩ := hg
    exact safetyGroup_spec _ i

/-- `SecureCompare` (part_001): length check, then OR-accumulate the XOR of
corresponding bytes and compare the accumulator with zero. -/
def SecureCompare (a b : List Nat) : Bool :=
  if a.length ≠ b.length then false
  else ((List.zipWith (· ^^^ ·) a b).foldl (· ||| ·) 0) == 0

theorem nat_or_eq_zero (a b : Nat) : a ||| b = 0 ↔ a = 0 ∧ b = 0 := by
  constructor
  · intro h
    have hb : ∀ i, (a ||| b).testBit i = false := by
      intro i; rw [h]; exact Nat.zero_testBit i
    constructor
    · refine Nat.eq_of_testBit_eq (fun i => ?_)
      have h' := hb i
      rw [Nat.testBit_or] at h'
      rw [(Bool.or_eq_false_iff.mp h').1, Nat.zero_testBit]
    · refine Nat.eq_of_testBit_eq (fun i => ?_)
      have h' := hb i
      rw [Nat.testBit_or] at h'
      rw [(Bool.or_eq_false_iff.mp h').2, Nat.zero_testBit]
  · rintro ⟨rfl, rfl⟩; rfl

theorem foldl_or_eq_zero (l : List Nat) :
    ∀ acc : Nat, l.foldl (· ||| ·) acc = 0 ↔ acc = 0 ∧ ∀ x ∈ l, x = 0 := by
  induction l with
  | nil => intro acc; simp
  | cons a t ih =>
      intro acc
      simp only [List.foldl_cons, ih, nat_or_eq_zero, List.mem_cons]
      constructor
      · rintro ⟨⟨h1, h2⟩, h3⟩
        refine ⟨h1, fun x hx => ?_⟩
        rcases hx with rfl | hx
        · exact h2
        · exact h3 x hx
      · rintro ⟨h1, h2⟩
        exact ⟨⟨h1, h2 a (Or.inl rfl)⟩, fun x hx => h2 x (Or.inr hx)⟩

theorem zipWith_xor_all_zero :
    ∀ (a b : List Nat), a.length = b.length →
      ((∀ x ∈ List.zipWith (· ^^^ ·) a b, x = 0) ↔ a = b) := by
  intro a
  induction a with
  | nil =>
      intro b h
      cases b with
      | nil => simp
      | cons y ys => simp at h
  | cons x xs ih =>
      intro b h
      cases b with
      | nil => simp at h
      | cons y ys =>
          simp only [List.zipWith_cons_cons, List.mem_cons, List.cons.injEq]
          rw [← ih ys (by simpa using h)]
          constructor
          · intro hz
            refine ⟨Nat.xor_eq_zero.mp (hz _ (Or.inl rfl)), fun z hz2 => hz z (Or.inr hz2)⟩
          · rintro ⟨rfl, hall⟩ z hz
            rcases hz with rfl | hz
            · exact Nat.xor_self x
            · exact hall z hz

/-- C10.  The constant-time comparator returns `true` exactly when the two
byte slices have the same length and are byte-for-byte equal, i.e. exactly
when they are equal as lists. -/
theorem SecureCompare_iff (a b : List Nat) : SecureCompare a b = true ↔ a = b := by
  unfold SecureCompare
  by_cases hl : a.length = b.length
  · rw [if_neg (by simp [hl])]
    simp only [beq_iff_eq, foldl_or_eq_zero, eq_self_iff_true, true_and]
    exact zipWith_xor_all_zero a b hl
  · rw [if_pos (by simp [hl])]
    constructor
    · intro h
      exact absurd h (by decide)
    · intro h
      exact absurd (by rw [h]) hl

/-- C5 (divergence witness).  The AEAD nonce is the fresh randomness drawn
inside `encryptWithKey`, passed straight through to the output message: it
is whatever `crypto/rand` produced (here 12 bytes of 0xAB), not the 96-bit
encoding of the sending chain's message number. -/
theorem encrypt_nonce_is_random :
    (Encrypt drObs [104, 105] (List.replicate 12 171)).1.Nonce = List.replicate 12 171 ∧
      List.replicate 12 171 ≠ u96_from drObs.SendingChain.MessageNumber ∧
      (∀ dr : DoubleRatchet, ∀ p nonce : List Nat, (Encrypt dr p nonce).1.Nonce = nonce) := by
  refine ⟨by decide, by decide, ?_⟩
  intro dr p nonce
  rfl

/-! ## pkg/network/server.go: the relay broker -/

/-- A value of the Go `map[string]interface{}` payloads used on the wire. -/
inductive PayloadValue where
  | str : String → PayloadValue
  | strs : List String → PayloadValue
deriving Repr, DecidableEq

/-- `Message` (client.go): the JSON wire message. -/
structure Message where
  ID : String
  Type' : String
  From : String
  To : String
  Timestamp : Int
  Payload : List (String × PayloadValue)
  Signature : String
deriving Repr, DecidableEq

/-- `ServerClient` (server.go).  `Send` models the contents of the buffered
outbound channel (capacity 256); the websocket connection handle and the
back-pointer to the server are transport-level and carry no routing state. -/
structure ServerClient where
  ID : String
  UserID : String
  Send : List Message
  LastSeen : Int
deriving Repr, DecidableEq

/-- `RoutedMessage` (server.go). -/
structure RoutedMessage where
  From : String
  To : String
  Message : Message
deriving Repr, DecidableEq

/-- `Server` (server.go): the client map keyed by client ID (an association
list models the Go map; iteration order of the Go map is unspecified, the
list order models one such order), the central routing queue (capacity
1000) and the messages-routed counter. -/
structure Server where
  clients : List (String × ServerClient)
  messageQueue : List RoutedMessage
  messagesRouted : Nat
deriving Repr, DecidableEq

/-- Go map assignment `m[k] = v`: replace the entry if the key is present,
otherwise append it. -/
def mapSet (m : List (String × ServerClient)) (k : String) (v : ServerClient) :
    List (String × ServerClient) :=
  if m.any (fun kv => kv.1 == k) then m.map (fun kv => if kv.1 == k then (k, v) else kv)
  else m ++ [(k, v)]

/-- `addClient` (server.go): `s.clients[client.ID] = client`. -/
def addClient (s : Server) (client : ServerClient) : Server :=
  { s with clients := mapSet s.clients client.ID client }

/-- `removeClient` (server.go): `delete(s.clients, client.ID)`. -/
def removeClient (s : Server) (client : ServerClient) : Server :=
  { s with clients := s.clients.filter (fun kv => kv.1 != client.ID) }

/-- `findClientByUserID` (server.go): scan the client map for the first
record whose `UserID` matches; `none` models the `nil` return. -/
def findClientByUserID (s : Server) (userID : String) : Option ServerClient :=
  (s.clients.find? (fun kv => kv.2.UserID == userID)).map Prod.snd

/-- `handleClientHello` (server.go): set the record's `UserID` to the
message's `From` field (no check for an existing record with the same user
id, no supersession, no closing of older records) and enqueue a
`server_hello` response on the client's own channel if it has room.
`cid` locates the (pointer-shared) client record in the server map;
`respID` is the generated message id and `now` the current time. -/
def handleClientHello (s : Server) (cid : String) (msg : Message) (respID : String)
    (now : Int) : Server :=
  match (s.clients.find? (fun kv => kv.1 == cid)).map Prod.snd with
  | none => s
  | some c =>
      mkServerWithHello s cid c msg respID now
where
  /-- the body after the lookup: mutate `UserID`, build the response, try to
  enqueue it. -/
  mkServerWithHello (s : Server) (cid : String) (c : ServerClient) (msg : Message)
      (respID : String) (now : Int) : Server :=
    let c1 : ServerClient := { c with UserID := msg.From }
    let response : Message :=
      { ID := respID, Type' := "server_hello", From := "server", To := c1.UserID
        Timestamp := now
        Payload := [("version", PayloadValue.str "1.0"),
                    ("session_id", PayloadValue.str c1.ID),
                    ("capabilities", PayloadValue.strs ["message_relay", "offline_storage"])]
        Signature := "" }
    let c2 := if c1.Send.length < 256 then { c1 with Send := c1.Send ++ [response] } else c1
    { s with clients := mapSet s.clients cid c2 }

/-- `handleChatMessage` (server.go): reject an empty destination, then try
to put a `RoutedMessage` on the central queue (capacity 1000, dropped when
full). -/
def handleChatMessage (s : Server) (c : ServerClient) (msg : Message) : Server :=
  if msg.To == "" then s
  else if s.messageQueue.length < 1000 then
    { s with messageQueue :=
        s.messageQueue ++ [{ From := c.UserID, To := msg.To, Message := msg }] }
  else s

/-- `routeMessage` (server.go): look up the destination user's client; if
absent, log and return (the offline TODO - no reply of any kind reaches the
sender); if present, enqueue on its channel when there is room (capacity
256) and bump the counter, else drop. -/
def routeMessage (s : Server) (routedMsg : RoutedMessage) : Server :=
  match findClientByUserID s routedMsg.To with
  | none => s
  | some destClient =>
      if destClient.Send.length < 256 then
        { s with
          clients := mapSet s.clients destClient.ID
            { destClient with Send := destClient.Send ++ [routedMsg.Message] }
          messagesRouted := s.messagesRouted + 1 }
      else s

/-- The empty broker state. -/
def emptyServer : Server := { clients := [], messageQueue := [], messagesRouted := 0 }

/-- A freshly connected, unauthenticated client record with id `cid`. -/
def freshClient (cid : String) : ServerClient :=
  { ID := cid, UserID := "", Send := [], LastSeen := 0 }

/-- A `client_hello` claiming user id "alice". -/
def helloAlice (mid : String) : Message :=
  { ID := mid, Type' := "client_hello", From := "alice", To := "", Timestamp := 0
    Payload := [], Signature := "" }

/-- C7 (divergence witness).  `handleClientHello` performs no supersession:
after two clients "c1" and "c2" both complete a hello for user id "alice",
the broker state holds two coexisting records with `UserID = "alice"` -
neither was closed or removed. -/
theorem duplicate_userid_clients_coexist :
    ((handleClientHello
        (handleClientHello (addClient (addClient emptyServer (freshClient "c1"))
          (freshClient "c2")) "c1" (helloAlice "m1") "r1" 0)
        "c2" (helloAlice "m2") "r2" 0).clients.filter
          (fun kv => kv.2.UserID == "alice")).length = 2 ∧
      (handleClientHello
        (handleClientHello (addClient (addClient emptyServer (freshClient "c1"))
          (freshClient "c2")) "c1" (helloAlice "m1") "r1" 0)
        "c2" (helloAlice "m2") "r2" 0).clients.length = 2 := by
  constructor
  · decide
  · decide

/-- A broker with a single authenticated client, user "alice", empty queue. -/
def serverAlice : Server :=
  { clients := [("c1", { ID := "c1", UserID := "alice", Send := [], LastSeen := 0 })]
    messageQueue := [], messagesRouted := 0 }

/-- A chat envelope from alice to carol (who has no connected client). -/
def chatToCarol : Message :=
  { ID := "m9", Type' := "chat", From := "alice", To := "carol", Timestamp := 0
    Payload := [], Signature := "" }

/-- C8 (divergence witness).  Routing a chat envelope to an offline user
leaves the broker state completely unchanged: no `error{UserOffline}` (or
any other reply) is enqueued for the sender - the message is dropped with
only a log line. -/
theorem offline_destination_dropped_silently :
    findClientByUserID serverAlice "carol" = none ∧
      routeMessage serverAlice { From := "alice", To := "carol", Message := chatToCarol } =
        serverAlice := by
  constructor
  · decide
  · decide

/-! ## pkg/network/client.go: reconnection -/

/-- `ClientOptions` (client.go), restricted to the fields the reconnection
logic reads.  Durations are in nanoseconds (Go `time.Duration`). -/
structure ClientOptions where
  MaxReconnectAttempts : Nat
  ReconnectDelay : Nat
deriving Repr, DecidableEq

/-- The reconnection-relevant state of `Client` (client.go). -/
structure Client where
  reconnectAttempts : Nat
  maxReconnectAttempts : Nat
  reconnectDelay : Nat
deriving Repr, DecidableEq

/-- `NewClient` (client.go): zero options default to 10 attempts and a
5-second (5e9 ns) base delay. -/
def NewClient (opts : ClientOptions) : Client :=
  { reconnectAttempts := 0
    maxReconnectAttempts :=
      if opts.MaxReconnectAttempts = 0 then 10 else opts.MaxReconnectAttempts
    reconnectDelay := if opts.ReconnectDelay = 0 then 5000000000 else opts.ReconnectDelay }

/-- `ConnectionEventType` (client.go), in iota order. -/
inductive ConnectionEventType where
  | Connected
  | Disconnected
  | Reconnecting
  | ConnError
deriving Repr, DecidableEq

/-- The wait computed inside `attemptReconnection` (client.go):
`delay := c.reconnectDelay * time.Duration(c.reconnectAttempts)`, capped at
60 seconds.  Linear in the attempt counter. -/
def reconnectWaitDelay (reconnectDelay attempts : Nat) : Nat :=
  min (reconnectDelay * attempts) 60000000000

/-- The loop of `attemptReconnection` (client.go), driven by `connectOk`
(the outcome of the k-th `Connect` call).  `fuel` is the remaining loop
bound `maxAttempts - attempts`, which the loop can never exceed since the
counter increases every iteration.  Returns the emitted connection events,
the waits performed, and whether reconnection succeeded.  On giving up the
code only logs - no terminal event is emitted. -/
def attemptReconnectionGo (connectOk : Nat → Bool) :
    Nat → Nat → Nat → Nat → List ConnectionEventType × List Nat × Bool
  | 0, _, _, _ => ([], [], false)
  | fuel + 1, attempts, maxAttempts, rdelay =>
      if attempts < maxAttempts then
        if connectOk (attempts + 1) then ([ConnectionEventType.Reconnecting], [], true)
        else
          let rest := attemptReconnectionGo connectOk fuel (attempts + 1) maxAttempts rdelay
          (ConnectionEventType.Reconnecting :: rest.1,
           reconnectWaitDelay rdelay (attempts + 1) :: rest.2.1, rest.2.2)
      else ([], [], false)

/-- `attemptReconnection` (client.go), entered with the client's current
counters. -/
def attemptReconnection (c : Client) (connectOk : Nat → Bool) :
    List ConnectionEventType × List Nat × Bool :=
  attemptReconnectionGo connectOk (c.maxReconnectAttempts - c.reconnectAttempts)
    c.reconnectAttempts c.maxReconnectAttempts c.reconnectDelay

/-- C9 (divergence witness).  With default options (10 attempts, 5 s base)
and every connection attempt failing, the client waits 5 s, 10 s, ..., 50 s
(linear in the attempt number, no jitter), emits only `Reconnecting` events
(no permanent-disconnection event when it gives up), and the observed wait
before attempt 5 - 20 s - is outside the claimed jittered exponential range
`min(5 x 2^k, 60) x [0.75, 1.25]` for the corresponding attempt number
under either 1-based (k = 4) or 0-based (k = 3) counting. -/
theorem reconnection_backoff_divergence :
    attemptReconnection (NewClient { MaxReconnectAttempts := 0, ReconnectDelay := 0 })
        (fun _ => false) =
      (List.replicate 10 ConnectionEventType.Reconnecting,
       [5000000000, 10000000000, 15000000000, 20000000000, 25000000000,
        30000000000, 35000000000, 40000000000, 45000000000, 50000000000], false) ∧
      ¬ (∃ j : ℚ, 3 / 4 ≤ j ∧ j ≤ 5 / 4 ∧ (20 : ℚ) = min ((5 : ℚ) * 2 ^ 4) 60 * j) ∧
      ¬ (∃ j : ℚ, 3 / 4 ≤ j ∧ j ≤ 5 / 4 ∧ (20 : ℚ) = min ((5 : ℚ) * 2 ^ 3) 60 * j) := by
  refine ⟨by decide, ?_, ?_⟩
  · rintro ⟨j, h1, h2, h3⟩
    rw [show min ((5 : ℚ) * 2 ^ 4) 60 = 60 from by norm_num [min_def]] at h3
    have : j = 1 / 3 := by linarith
    rw [this] at h1
    norm_num at h1
  · rintro ⟨j, h1, h2, h3⟩
    rw [show min ((5 : ℚ) * 2 ^ 3) 60 = 40 from by norm_num [min_def]] at h3
    have : j = 1 / 2 := by linarith
    rw [this] at h1
    norm_num at h1

end SecureChat
